import Mathlib

/-!
Shallow embedding of the certmagic generic-S3 storage backend
(`generic-s3.go`, main implementation file with the context-aware lock
loop).  The object store (minio client) is an external collaborator and
is modelled functionally over an association list, with optional fault
injection so that error-propagation behaviour can be stated.  Times are
naturals (seconds); the RFC3339 textual timestamp encoding produced by
the Go time library is modelled by an injective unary byte encoding with
a partial inverse, which is all the lock logic observes of it.
-/

instance {ε α : Type} [DecidableEq ε] [DecidableEq α] : DecidableEq (Except ε α)
  | .error e1, .error e2 =>
    if h : e1 = e2 then .isTrue (by rw [h]) else .isFalse (fun hh => by cases hh; exact h rfl)
  | .error _, .ok _ => .isFalse (fun h => by cases h)
  | .ok _, .error _ => .isFalse (fun h => by cases h)
  | .ok a1, .ok a2 =>
    if h : a1 = a2 then .isTrue (by rw [h]) else .isFalse (fun hh => by cases hh; exact h rfl)

/-- Errors produced by the minio client.  `resp status` models a
`minio.ErrorResponse` carrying an HTTP status code (what
`errors.As(err, &respErr)` succeeds on); `plain n` models any other Go
error value. -/
inductive S3Error where
  | resp (status : Nat)
  | plain (n : Nat)
deriving DecidableEq

/-- The check `errors.As(err, &respErr) && respErr.StatusCode == http.StatusNotFound`. -/
def isNotFound : S3Error → Bool
  | .resp s => s == 404
  | .plain _ => false

/-- The check `errors.As(err, &respErr) && respErr.StatusCode != http.StatusNotFound`
used on the stale-lockfile delete error. -/
def isRespNot404 : S3Error → Bool
  | .resp s => s != 404
  | .plain _ => false

/-- `time.Now().Format(time.RFC3339)`: modelled as an injective encoding
of the timestamp into bytes. -/
def formatRFC3339 (t : Nat) : List Nat :=
  List.replicate (t + 1) 1

/-- `time.Parse(time.RFC3339, s)`: partial inverse of the encoding; any
other byte string fails to parse (a corrupt lock file). -/
def parseRFC3339 (bs : List Nat) : Option Nat :=
  if bs != [] && bs.all (fun b => b == 1) then some (bs.length - 1) else none

/-- Contents of the S3 bucket: object key to object bytes. -/
abbrev Storage := List (String × List Nat)

def storeLookup : Storage → String → Option (List Nat)
  | [], _ => none
  | (k2, v) :: st, k => if k2 = k then some v else storeLookup st k

/-- Putting an object replaces any object stored under the same key. -/
def storePut (st : Storage) (k : String) (v : List Nat) : Storage :=
  (k, v) :: List.filter (fun e => e.1 != k) st

/-- `GetObject` + reading the stream, as one external call: either an
injected fault, the object's bytes, or a 404 error response when the
object does not exist. -/
def s3GetF (st : Storage) (k : String) (fault : Option S3Error) : Except S3Error (List Nat) :=
  match fault with
  | some e => .error e
  | none =>
    match storeLookup st k with
    | some v => .ok v
    | none => .error (.resp 404)

/-- `PutObject`: either an injected fault or the updated bucket. -/
def s3PutF (st : Storage) (k : String) (v : List Nat) (fault : Option S3Error) :
    Except S3Error Storage :=
  match fault with
  | some e => .error e
  | none => .ok (storePut st k v)

/-- `RemoveObject`, per the consumed object-store capability
(`delete(objectKey) -> ok | NotFound`): a not-found delete reports a 404
error response. -/
def s3RemoveF (st : Storage) (k : String) (fault : Option S3Error) : Except S3Error Storage :=
  match fault with
  | some e => .error e
  | none =>
    match storeLookup st k with
    | some _ => .ok (List.filter (fun e => e.1 != k) st)
    | none => .error (.resp 404)

/-- `StatObject`: yields the object's size, or 404 when absent. The
server-assigned `LastModified` metadata is outside the functional model
and reported as 0. -/
def s3StatF (st : Storage) (k : String) (fault : Option S3Error) : Except S3Error Nat :=
  match fault with
  | some e => .error e
  | none =>
    match storeLookup st k with
    | some v => .ok v.length
    | none => .error (.resp 404)

/-- `ListObjects` over the bucket: keys beginning with the requested
listing root; non-recursive listing stops at the first `/` past the
root, recursive listing returns everything under it. -/
def s3ListF (st : Storage) (pfx : String) (recursive : Bool) : List String :=
  List.filter
    (fun k =>
      pfx.toList.isPrefixOf k.toList &&
        (recursive || !((k.toList.drop pfx.toList.length).contains '/')))
    (st.map Prod.fst)

/-!
Encryption wrapper.  The wrapper implementations (`IO` interface,
`CleartextIO`, `SecretBoxIO`) live in the repository's crypto source
file, which is not among the provided source files; they are modelled
from the spec below.
-/

/-- Modelled from the spec: the `IO` wrapper capability of the missing
crypto source file, "a tagged variant ... with two implementations
dispatched once at construction": identity (cleartext) and secret-box
with a fixed 32-byte key. -/
inductive IOWrap where
  | cleartext
  | secretBox (key : List Nat)
deriving DecidableEq

/-- Modelled from the spec: the secret-box nonce, "a per-write random
nonce", 24 bytes as in NaCl secretbox. -/
def sbNonceLen : Nat := 24

/-- Modelled from the spec: keystream stand-in for the secret-box
stream cipher (any fixed function of key, nonce and position). -/
def sbPrf (key nonce : List Nat) (i : Nat) : Nat :=
  ((key.sum + 1) * 65537 + nonce.sum * 257 + i) % 256

/-- Modelled from the spec: masking the message with the keystream;
XOR makes it an involution. -/
def sbMask (key nonce : List Nat) : Nat → List Nat → List Nat
  | _, [] => []
  | i, b :: bs => (b ^^^ sbPrf key nonce i) :: sbMask key nonce (i + 1) bs

/-- Modelled from the spec: authentication-tag stand-in for the
secret-box MAC over key, nonce and message. -/
def sbTag (key nonce msg : List Nat) : Nat :=
  List.foldl (fun a b => (a * 131 + b + 1) % 4294967296) 0 (key ++ nonce ++ msg)

/-- Modelled from the spec: secret-box `encode(plaintext) -> nonce ‖
ciphertext`, the ciphertext authenticated by a tag. -/
def sbSeal (key nonce msg : List Nat) : List Nat :=
  nonce ++ sbTag key nonce msg :: sbMask key nonce 0 msg

/-- Modelled from the spec: secret-box `decode(stream)` splits off the
nonce prefix and authenticates and decrypts the remainder, failing
(`none`) instead of returning garbage when authentication fails. -/
def sbOpen (key stream : List Nat) : Option (List Nat) :=
  let nonce := stream.take sbNonceLen
  match stream.drop sbNonceLen with
  | [] => none
  | t :: body =>
    let msg := sbMask key nonce 0 body
    if t = sbTag key nonce msg then some msg else none

/-- Modelled from the spec: `IO.ByteReader`, the encode direction used
by `Store` (identity for cleartext; seal under a fresh nonce for
secret-box). -/
def IOWrap.byteReader : IOWrap → List Nat → List Nat → List Nat
  | .cleartext, _, v => v
  | .secretBox key, nonce, v => sbSeal key nonce v

/-- Modelled from the spec: `IO.WrapReader`, the decode direction used
by `Load` (`none` is a decode/authentication failure). -/
def IOWrap.wrapReader : IOWrap → List Nat → Option (List Nat)
  | .cleartext, s => some s
  | .secretBox key, s => sbOpen key s

/-- The `S3Storage` struct (the minio client handle is replaced by the
functional store passed to each operation). -/
structure S3Storage where
  objPfx : String
  bucket : String
  iowrap : IOWrap
deriving DecidableEq

def S3Storage.objName (gs : S3Storage) (key : String) : String :=
  gs.objPfx ++ "/" ++ key

def S3Storage.objLockName (gs : S3Storage) (key : String) : String :=
  gs.objName key ++ ".lock"

/-- The `S3Opts` construction options. A `nil` or empty `EncryptionKey`
is the empty list. -/
structure S3Opts where
  endpoint : String
  bucket : String
  accessKeyID : String
  secretAccessKey : String
  objPfx : String
  insecure : Bool
  encryptionKey : List Nat
deriving DecidableEq

/-- Error outcomes of `NewS3Storage`. -/
inductive NewError where
  | keyLength
  | clientErr (e : S3Error)
  | bucketCheckErr (e : S3Error)
  | bucketMissing (b : String)
deriving DecidableEq

/-- Responses of the two construction-time client steps (`minio.New`
and `BucketExists`). -/
structure NetEnv where
  newClientRes : Except S3Error Unit
  bucketExistsRes : Except S3Error Bool
deriving DecidableEq

/-- The tail of `NewS3Storage` after wrapper selection: client
construction (`minio.New`) and the bucket-existence check.  The second
component counts the client/network steps performed. -/
def newS3Connect (opts : S3Opts) (net : NetEnv) (w : IOWrap) : Except NewError S3Storage × Nat :=
  match net.newClientRes with
  | .error e => (.error (.clientErr e), 1)
  | .ok _ =>
    match net.bucketExistsRes with
    | .error e => (.error (.bucketCheckErr e), 2)
    | .ok false => (.error (.bucketMissing opts.bucket), 2)
    | .ok true => (.ok { objPfx := opts.objPfx, bucket := opts.bucket, iowrap := w }, 2)

/-- `NewS3Storage`: wrapper selection from the encryption key (a
length check that precedes every client/network step), then the
connection steps. -/
def NewS3Storage (opts : S3Opts) (net : NetEnv) : Except NewError S3Storage × Nat :=
  if opts.encryptionKey = [] then newS3Connect opts net .cleartext
  else if opts.encryptionKey.length ≠ 32 then (.error .keyLength, 0)
  else newS3Connect opts net (.secretBox opts.encryptionKey)

/-!
The lock manager (`Lock`, `putLockFile`).  Each loop iteration's
external responses (get, read, stale-delete, put, the wall clock at the
put, and whether the context's cancellation fired during the poll wait)
are an explicit input; the loop consumes a list of such inputs and also
reports the put and remove-object calls it performed.
-/

def LockExpiration : Nat := 120

def LockPollInterval : Nat := 1

def LockTimeout : Nat := 15

/-- External responses consumed by one iteration of the `Lock` loop. -/
structure LockIterIn where
  getRes : Except S3Error Unit
  readRes : Except S3Error (List Nat)
  delRes : Except S3Error Unit
  putRes : Except S3Error Unit
  now : Nat
  cancelled : Bool
deriving DecidableEq

/-- Return values of `Lock`: `acquired` is the `nil` return, the error
constructors keep the distinct wrappings of the source, `ctxErr` is
`ctx.Err()`. -/
inductive LockResult where
  | acquired
  | putErr (e : S3Error)
  | acquiringFailed (e : S3Error)
  | readingFailed (e : S3Error)
  | deadlocked (e : S3Error)
  | ctxErr
deriving DecidableEq

/-- One iteration either returns from `Lock` or loops again. -/
inductive LockStep where
  | ret (r : LockResult)
  | again
deriving DecidableEq

/-- The put and remove-object calls a `Lock` call performed. -/
structure LockEffects where
  writes : List (String × List Nat)
  deletes : List String
deriving DecidableEq

def LockEffects.empty : LockEffects := { writes := [], deletes := [] }

def LockEffects.append (a b : LockEffects) : LockEffects :=
  { writes := a.writes ++ b.writes, deletes := a.deletes ++ b.deletes }

/-- `putLockFile`: puts the RFC3339-formatted current time under the
lock object's name and returns the put's error. -/
def S3Storage.putLockFile (gs : S3Storage) (key : String) (now : Nat)
    (putRes : Except S3Error Unit) : LockResult × LockEffects :=
  (match putRes with
   | .ok _ => .acquired
   | .error e => .putErr e,
   { writes := [(gs.objLockName key, formatRFC3339 now)], deletes := [] })

/-- One iteration of the `for` loop in `Lock`, mirroring the source:
not-found on the get or the read, or an unparseable lock file, leads to
`putLockFile`; other get/read errors return wrapped; then the two
`startedAt`-based staleness comparisons; the stale branch calls
`gs.Delete(ctx, lockFile)` (whose key is therefore prefixed a second
time) and ignores a not-found delete error; otherwise the poll `select`
either observes cancellation or loops. -/
def S3Storage.lockIteration (gs : S3Storage) (startedAt : Nat) (key : String)
    (inp : LockIterIn) : LockStep × LockEffects :=
  let lockFile := gs.objLockName key
  let put := gs.putLockFile key inp.now inp.putRes
  match inp.getRes with
  | .error e =>
    if isNotFound e then (.ret put.1, put.2)
    else (.ret (.acquiringFailed e), .empty)
  | .ok _ =>
    match inp.readRes with
    | .error e =>
      if isNotFound e then (.ret put.1, put.2)
      else (.ret (.readingFailed e), .empty)
    | .ok buf =>
      match parseRFC3339 buf with
      | none => (.ret put.1, put.2)
      | some lockedAt =>
        if startedAt + LockTimeout > lockedAt then (.ret put.1, put.2)
        else if startedAt + LockExpiration > lockedAt then
          let delKey := gs.objName lockFile
          match inp.delRes with
          | .error e =>
            if isRespNot404 e then
              (.ret (.deadlocked e), { writes := [], deletes := [delKey] })
            else (.ret put.1, { writes := put.2.writes, deletes := [delKey] })
          | .ok _ => (.ret put.1, { writes := put.2.writes, deletes := [delKey] })
        else
          if inp.cancelled then (.ret .ctxErr, .empty) else (.again, .empty)

/-- `Lock`: the polling loop, iterated over the list of per-iteration
external responses (`none` if the inputs run out while still polling). -/
def S3Storage.Lock (gs : S3Storage) (startedAt : Nat) (key : String) :
    List LockIterIn → Option LockResult × LockEffects
  | [] => (none, .empty)
  | inp :: rest =>
    match gs.lockIteration startedAt key inp with
    | (.ret r, eff) => (some r, eff)
    | (.again, eff) =>
      let next := gs.Lock startedAt key rest
      (next.1, eff.append next.2)

/-!  The storage facade: `Store`, `Load`, `Delete`, `Exists`, `Stat`,
`List`.  Errors returned to the host are `GoError`s: the designated
not-found signal `fs.ErrNotExist`, a decode (authentication) failure,
or an untranslated client error. -/

inductive GoError where
  | fsNotExist
  | authErr
  | s3 (e : S3Error)
deriving DecidableEq

/-- `certmagic.KeyInfo`. -/
structure KeyInfo where
  key : String
  size : Nat
  modified : Nat
  isTerminal : Bool
deriving DecidableEq

/-- `Store`: encode through the wrapper (the nonce is the randomness a
secret-box write draws), put under the prefixed name; the put's error
is returned unchanged. -/
def S3Storage.Store (gs : S3Storage) (st : Storage) (fault : Option S3Error)
    (nonce : List Nat) (key : String) (value : List Nat) : Except S3Error Storage :=
  s3PutF st (gs.objName key) (gs.iowrap.byteReader nonce value) fault

/-- `Load`: get the prefixed object, mapping a not-found response to
`fs.ErrNotExist`; decode through the wrapper, a decode failure being
returned as an error. -/
def S3Storage.Load (gs : S3Storage) (st : Storage) (fault : Option S3Error)
    (key : String) : Except GoError (List Nat) :=
  match s3GetF st (gs.objName key) fault with
  | .error e => if isNotFound e then .error .fsNotExist else .error (.s3 e)
  | .ok bytes =>
    match gs.iowrap.wrapReader bytes with
    | some v => .ok v
    | none => .error .authErr

/-- `Delete`: `RemoveObject` on the prefixed name, its result returned
with no translation. -/
def S3Storage.Delete (gs : S3Storage) (st : Storage) (fault : Option S3Error)
    (key : String) : Except GoError Storage :=
  match s3RemoveF st (gs.objName key) fault with
  | .ok st2 => .ok st2
  | .error e => .error (.s3 e)

/-- `Exists`: `err == nil` of a `StatObject` on the prefixed name. -/
def S3Storage.Exists (gs : S3Storage) (st : Storage) (fault : Option S3Error)
    (key : String) : Bool :=
  match s3StatF st (gs.objName key) fault with
  | .ok _ => true
  | .error _ => false

/-- `Stat`: `StatObject` on the prefixed name, mapping not-found to
`fs.ErrNotExist`; on success fills `KeyInfo` with the logical key, the
size, the (unmodelled) modification time and `IsTerminal = true`. -/
def S3Storage.Stat (gs : S3Storage) (st : Storage) (fault : Option S3Error)
    (key : String) : Except GoError KeyInfo :=
  match s3StatF st (gs.objName key) fault with
  | .error e => if isNotFound e then .error .fsNotExist else .error (.s3 e)
  | .ok size => .ok { key := key, size := size, modified := 0, isTerminal := true }

/-- `List`: lists with `Prefix: gs.objName("")` and `Recursive: true`,
ignoring both the `prefix` and the `recursive` arguments, and always
returns a `nil` error. -/
def S3Storage.List (gs : S3Storage) (st : Storage) (p : String) (recursive : Bool) :
    List String :=
  s3ListF st (gs.objName "") true

/-!  Concrete instances used by the claim theorems and witnesses. -/

def gs0 : S3Storage := { objPfx := "pre", bucket := "b", iowrap := .cleartext }

/-- C1: the claim says lock age is `now − recorded timestamp` and a lock
within the 15 s freshness threshold is held and polled.  The code
compares `startedAt + LockTimeout > lockedAt`: at a lock record whose
timestamp equals the loop start (age zero, well within the threshold)
the acquire overwrites the record as "expired" instead of polling. -/
theorem C1_fresh_lock_overwritten_instead_of_polled :
    gs0.lockIteration 20 "certA"
      { getRes := .ok (), readRes := .ok (formatRFC3339 20), delRes := .ok (),
        putRes := .ok (), now := 20, cancelled := false } =
      (.ret .acquired,
       { writes := [(gs0.objLockName "certA", formatRFC3339 20)], deletes := [] }) := by
  decide

/-- C2: when the lock record does not exist (404 on the get) the code
does write a fresh record with the current timestamp and return
success; but a record that exists, parses and is fresh (age 2 s) is
overwritten on that same iteration, contrary to the claim. -/
theorem C2_fresh_record_not_left_alone :
    (gs0.lockIteration 20 "certA"
      { getRes := .error (.resp 404), readRes := .ok [], delRes := .ok (),
        putRes := .ok (), now := 20, cancelled := false } =
      (.ret .acquired,
       { writes := [(gs0.objLockName "certA", formatRFC3339 20)], deletes := [] })) ∧
    (gs0.lockIteration 20 "certA"
      { getRes := .ok (), readRes := .ok (formatRFC3339 18), delRes := .ok (),
        putRes := .ok (), now := 20, cancelled := false }).2.writes ≠ [] := by
  decide

set_option maxRecDepth 4096 in
/-- C3: a lock record aged 3 minutes (beyond the 2 min abandonment
threshold) is reclaimed through the first overwrite branch with no
delete and no notice; and when the delete branch does run (it requires
a lock timestamped 15 s to 2 min in the future), the key it deletes is
prefixed a second time and so differs from the lock record's key. -/
theorem C3_abandoned_lock_not_force_deleted :
    (gs0.lockIteration 200 "certA"
      { getRes := .ok (), readRes := .ok (formatRFC3339 20), delRes := .ok (),
        putRes := .ok (), now := 200, cancelled := false } =
      (.ret .acquired,
       { writes := [(gs0.objLockName "certA", formatRFC3339 200)], deletes := [] })) ∧
    ((gs0.lockIteration 0 "certA"
      { getRes := .ok (), readRes := .ok (formatRFC3339 50), delRes := .ok (),
        putRes := .ok (), now := 0, cancelled := false }).2.deletes =
      [gs0.objName (gs0.objLockName "certA")]) ∧
    gs0.objName (gs0.objLockName "certA") ≠ gs0.objLockName "certA" := by
  decide

/-- An iteration that polls (`again`) or observes cancellation
(`ctxErr`) performs no put and no delete. -/
theorem lockIteration_continue_no_effects (gs : S3Storage) (s : Nat) (key : String)
    (inp : LockIterIn) :
    (gs.lockIteration s key inp).1 = .again ∨ (gs.lockIteration s key inp).1 = .ret .ctxErr →
    (gs.lockIteration s key inp).2 = LockEffects.empty := by
  rcases inp with ⟨g, r, d, p, n, c⟩
  cases g with
  | error e =>
    by_cases he : isNotFound e = true <;>
      cases p <;>
        simp [S3Storage.lockIteration, S3Storage.putLockFile, he]
  | ok u =>
    cases r with
    | error e =>
      by_cases he : isNotFound e = true <;>
        cases p <;>
          simp [S3Storage.lockIteration, S3Storage.putLockFile, he]
    | ok buf =>
      cases hp : parseRFC3339 buf with
      | none =>
        cases p <;> simp [S3Storage.lockIteration, S3Storage.putLockFile, hp]
      | some lockedAt =>
        by_cases h1 : s + LockTimeout > lockedAt
        · cases p <;> simp [S3Storage.lockIteration, S3Storage.putLockFile, hp, h1]
        · by_cases h2 : s + LockExpiration > lockedAt
          · cases d with
            | error e =>
              by_cases hd : isRespNot404 e = true <;>
                cases p <;>
                  simp [S3Storage.lockIteration, S3Storage.putLockFile, hp, h1, h2, hd]
            | ok u2 =>
              cases p <;> simp [S3Storage.lockIteration, S3Storage.putLockFile, hp, h1, h2]
          · cases c <;> simp [S3Storage.lockIteration, S3Storage.putLockFile, hp, h1, h2]

/-- An iteration whose poll wait observed cancellation never loops. -/
theorem lockIteration_cancelled_not_again (gs : S3Storage) (s : Nat) (key : String)
    (inp : LockIterIn) (hc : inp.cancelled = true) :
    (gs.lockIteration s key inp).1 ≠ .again := by
  rcases inp with ⟨g, r, d, p, n, c⟩
  simp only at hc
  subst hc
  cases g with
  | error e =>
    by_cases he : isNotFound e = true <;>
      cases p <;>
        simp [S3Storage.lockIteration, S3Storage.putLockFile, he]
  | ok u =>
    cases r with
    | error e =>
      by_cases he : isNotFound e = true <;>
        cases p <;>
          simp [S3Storage.lockIteration, S3Storage.putLockFile, he]
    | ok buf =>
      cases hp : parseRFC3339 buf with
      | none =>
        cases p <;> simp [S3Storage.lockIteration, S3Storage.putLockFile, hp]
      | some lockedAt =>
        by_cases h1 : s + LockTimeout > lockedAt
        · cases p <;> simp [S3Storage.lockIteration, S3Storage.putLockFile, hp, h1]
        · by_cases h2 : s + LockExpiration > lockedAt
          · cases d with
            | error e =>
              by_cases hd : isRespNot404 e = true <;>
                cases p <;>
                  simp [S3Storage.lockIteration, S3Storage.putLockFile, hp, h1, h2, hd]
            | ok u2 =>
              cases p <;> simp [S3Storage.lockIteration, S3Storage.putLockFile, hp, h1, h2]
          · simp [S3Storage.lockIteration, S3Storage.putLockFile, hp, h1, h2]

/-- A `Lock` call that returns `ctx.Err()` performed no put and no
delete in any of its iterations. -/
theorem lock_ctxErr_no_effects (gs : S3Storage) (s : Nat) (key : String)
    (trace : List LockIterIn) :
    (gs.Lock s key trace).1 = some .ctxErr →
    (gs.Lock s key trace).2 = LockEffects.empty := by
  induction trace with
  | nil => intro h; simp [S3Storage.Lock] at h
  | cons inp rest ih =>
    intro h
    rcases hI : gs.lockIteration s key inp with ⟨step, eff⟩
    cases step with
    | ret r =>
      have hL : gs.Lock s key (inp :: rest) = (some r, eff) := by
        simp [S3Storage.Lock, hI]
      rw [hL] at h ⊢
      simp only [Option.some.injEq] at h
      subst h
      have he := lockIteration_continue_no_effects gs s key inp (Or.inr (by rw [hI]))
      rw [hI] at he
      exact he
    | again =>
      have hL : gs.Lock s key (inp :: rest) =
          ((gs.Lock s key rest).1, eff.append (gs.Lock s key rest).2) := by
        simp [S3Storage.Lock, hI]
      rw [hL] at h ⊢
      have he := lockIteration_continue_no_effects gs s key inp (Or.inl (by rw [hI]))
      rw [hI] at he
      have h2 := ih h
      have he2 : eff = LockEffects.empty := he
      subst he2
      simp [h2, LockEffects.append, LockEffects.empty]

/-- C4: the cancellation signal is checked in each poll iteration (an
iteration whose wait observed cancellation never loops again but
returns immediately), and a `Lock` call that returns the cancellation
outcome `ctx.Err()` — distinct from `acquired` and from every error
return — has written, overwritten and deleted nothing. -/
theorem C4_cancellation_prompt_distinct_and_unmutated (gs : S3Storage) (s : Nat)
    (key : String) (trace : List LockIterIn) (inp : LockIterIn) :
    ((gs.Lock s key trace).1 = some .ctxErr →
      (gs.Lock s key trace).2.writes = [] ∧ (gs.Lock s key trace).2.deletes = []) ∧
    (inp.cancelled = true → (gs.lockIteration s key inp).1 ≠ .again) := by
  constructor
  · intro h
    have he := lock_ctxErr_no_effects gs s key trace h
    rw [he]
    exact ⟨rfl, rfl⟩
  · exact lockIteration_cancelled_not_again gs s key inp

/-- A poll iteration input (held lock as the code understands it: a
record timestamped 200 with the attempt started at 0) whose wait
observes cancellation. -/
def pollCancelIn : LockIterIn :=
  { getRes := .ok (), readRes := .ok (formatRFC3339 200), delRes := .ok (),
    putRes := .ok (), now := 0, cancelled := true }

set_option maxRecDepth 4096 in
theorem C4_witness :
    (gs0.Lock 0 "certA" [pollCancelIn]).2.writes = [] ∧
    (gs0.Lock 0 "certA" [pollCancelIn]).2.deletes = [] :=
  (C4_cancellation_prompt_distinct_and_unmutated gs0 0 "certA" [pollCancelIn] pollCancelIn).1
    (by decide)

/-- C5: a get error other than not-found, and a read error other than
not-found, each abort the iteration with the wrapped error; an
iteration only ever loops again when the get and the read both
succeeded (no storage error is swallowed and retried); and `acquired`
is only returned when the lock-record put itself succeeded. -/
theorem C5_polling_loop_propagates_storage_errors (gs : S3Storage) (s : Nat)
    (key : String) (inp : LockIterIn) (e : S3Error) :
    (inp.getRes = .error e → isNotFound e = false →
      (gs.lockIteration s key inp).1 = .ret (.acquiringFailed e)) ∧
    (inp.getRes = .ok () → inp.readRes = .error e → isNotFound e = false →
      (gs.lockIteration s key inp).1 = .ret (.readingFailed e)) ∧
    ((gs.lockIteration s key inp).1 = .again →
      inp.getRes = .ok () ∧ ∃ b, inp.readRes = .ok b) ∧
    ((gs.lockIteration s key inp).1 = .ret .acquired → inp.putRes = .ok ()) := by
  rcases inp with ⟨g, r, d, p, n, c⟩
  refine ⟨?_, ?_, ?_, ?_⟩
  · intro hg he
    simp only at hg
    subst hg
    simp [S3Storage.lockIteration, he]
  · intro hg hr he
    simp only at hg hr
    subst hg; subst hr
    simp [S3Storage.lockIteration, he]
  · intro h
    cases g with
    | error e2 =>
      by_cases he : isNotFound e2 = true <;>
        cases p <;>
          simp_all [S3Storage.lockIteration, S3Storage.putLockFile, he]
    | ok u =>
      cases u
      refine ⟨rfl, ?_⟩
      cases r with
      | error e2 =>
        by_cases he : isNotFound e2 = true <;>
          cases p <;>
            simp_all [S3Storage.lockIteration, S3Storage.putLockFile, he]
      | ok buf => exact ⟨buf, rfl⟩
  · cases p with
    | ok u => cases u; intro _; rfl
    | error e2 =>
      cases g with
      | error e3 =>
        by_cases he : isNotFound e3 = true <;>
          simp [S3Storage.lockIteration, S3Storage.putLockFile, he]
      | ok u =>
        cases r with
        | error e3 =>
          by_cases he : isNotFound e3 = true <;>
            simp [S3Storage.lockIteration, S3Storage.putLockFile, he]
        | ok buf =>
          cases hp : parseRFC3339 buf with
          | none => simp [S3Storage.lockIteration, S3Storage.putLockFile, hp]
          | some lockedAt =>
            by_cases h1 : s + LockTimeout > lockedAt
            · simp [S3Storage.lockIteration, S3Storage.putLockFile, hp, h1]
            · by_cases h2 : s + LockExpiration > lockedAt
              · cases d with
                | error e4 =>
                  by_cases hd : isRespNot404 e4 = true <;>
                    simp [S3Storage.lockIteration, S3Storage.putLockFile, hp, h1, h2, hd]
                | ok u2 =>
                  simp [S3Storage.lockIteration, S3Storage.putLockFile, hp, h1, h2]
              · cases c <;>
                  simp [S3Storage.lockIteration, S3Storage.putLockFile, hp, h1, h2]

/-- A get failing with a non-response (non-404) error. -/
def getErrIn : LockIterIn :=
  { getRes := .error (.plain 7), readRes := .ok [], delRes := .ok (),
    putRes := .ok (), now := 0, cancelled := false }

theorem C5_witness :
    (gs0.lockIteration 0 "certA" getErrIn).1 = .ret (.acquiringFailed (.plain 7)) :=
  (C5_polling_loop_propagates_storage_errors gs0 0 "certA" getErrIn (.plain 7)).1 rfl rfl

/-- C6 counterexample: `Delete` of a key with no stored object returns
the object store's raw not-found response untranslated, which is a
different value from the host's designated `fs.ErrNotExist` outcome
(the one `Load` and `Stat` return). -/
theorem C6_counterexample_delete_not_mapped :
    gs0.Delete [] none "certA" = .error (.s3 (.resp 404)) ∧
    GoError.s3 (.resp 404) ≠ GoError.fsNotExist := by
  decide

/-- C6 amended: on a key with no stored object, `Load` and `Stat`
return the designated `fs.ErrNotExist` outcome, while `Delete` passes
the store's delete response through with no translation. -/
theorem C6_amended_load_stat_mapped_delete_raw (gs : S3Storage) (st : Storage)
    (key : String) (h : storeLookup st (gs.objName key) = none) :
    gs.Load st none key = .error .fsNotExist ∧
    gs.Stat st none key = .error .fsNotExist ∧
    gs.Delete st none key = .error (.s3 (.resp 404)) := by
  refine ⟨?_, ?_, ?_⟩ <;>
    simp [S3Storage.Load, S3Storage.Stat, S3Storage.Delete, s3GetF, s3StatF, s3RemoveF,
      h, isNotFound]

theorem C6_witness :
    gs0.Load [] none "certA" = .error .fsNotExist ∧
    gs0.Stat [] none "certA" = .error .fsNotExist ∧
    gs0.Delete [] none "certA" = .error (.s3 (.resp 404)) :=
  C6_amended_load_stat_mapped_delete_raw gs0 [] "certA" (by decide)

/-- C7 counterexample: with configured object prefix `pre`, a stored
key `pre/other/x`, request prefix `certs` and `recursive = false`, the
claim predicts the empty listing (no key begins with `pre/certs`), but
`List` returns `pre/other/x` — both arguments are ignored. -/
theorem C7_counterexample_list_ignores_arguments :
    S3Storage.List gs0 [("pre/other/x", [1])] "certs" false = ["pre/other/x"] ∧
    "pre/certs".toList.isPrefixOf "pre/other/x".toList = false := by
  decide

/-- C7 amended: `List` ignores its prefix and recursive arguments and
returns exactly the stored object keys that begin with the configured
object prefix qualification (`objPrefix + "/"`), always recursively. -/
theorem C7_amended_list_all_under_configured_root (gs : S3Storage) (st : Storage)
    (p : String) (recursive : Bool) :
    S3Storage.List gs st p recursive =
      List.filter (fun k => (gs.objName "").toList.isPrefixOf k.toList) (st.map Prod.fst) := by
  simp [S3Storage.List, s3ListF]

/-- A successful construction carries exactly the wrapper selected
before the connection steps. -/
theorem newS3Connect_iowrap (opts : S3Opts) (net : NetEnv) (w : IOWrap)
    (gs : S3Storage) (cnt : Nat) (h : newS3Connect opts net w = (.ok gs, cnt)) :
    gs.iowrap = w := by
  rcases net with ⟨nc, be⟩
  cases nc with
  | error e => simp [newS3Connect] at h
  | ok u =>
    cases be with
    | error e => simp [newS3Connect] at h
    | ok b =>
      cases b with
      | false => simp [newS3Connect] at h
      | true =>
        simp [newS3Connect] at h
        rw [← h.1]

/-- C8: construction with an empty key selects the cleartext wrapper;
with a key of length other than 32 it fails at once with the
key-length configuration error having performed zero client/network
steps; with a 32-byte key it selects the secret-box wrapper over that
key. -/
theorem C8_wrapper_selection_policy (opts : S3Opts) (net : NetEnv) :
    (opts.encryptionKey = [] →
      ∀ (gs : S3Storage) (cnt : Nat),
        NewS3Storage opts net = (.ok gs, cnt) → gs.iowrap = .cleartext) ∧
    (opts.encryptionKey ≠ [] → opts.encryptionKey.length ≠ 32 →
      NewS3Storage opts net = (.error .keyLength, 0)) ∧
    (opts.encryptionKey.length = 32 →
      ∀ (gs : S3Storage) (cnt : Nat),
        NewS3Storage opts net = (.ok gs, cnt) →
          gs.iowrap = .secretBox opts.encryptionKey) := by
  refine ⟨?_, ?_, ?_⟩
  · intro hk gs cnt h
    unfold NewS3Storage at h
    rw [if_pos hk] at h
    exact newS3Connect_iowrap opts net .cleartext gs cnt h
  · intro h1 h2
    unfold NewS3Storage
    rw [if_neg h1, if_pos h2]
  · intro h32 gs cnt h
    have h1 : opts.encryptionKey ≠ [] := by
      intro hh
      rw [hh] at h32
      simp at h32
    unfold NewS3Storage at h
    rw [if_neg h1, if_neg (by simp [h32])] at h
    exact newS3Connect_iowrap opts net (.secretBox opts.encryptionKey) gs cnt h

def optsBad : S3Opts :=
  { endpoint := "e", bucket := "b", accessKeyID := "a", secretAccessKey := "s",
    objPfx := "pre", insecure := false, encryptionKey := [1, 2, 3] }

def opts32 : S3Opts :=
  { endpoint := "e", bucket := "b", accessKeyID := "a", secretAccessKey := "s",
    objPfx := "pre", insecure := false, encryptionKey := List.replicate 32 9 }

def net0 : NetEnv := { newClientRes := .ok (), bucketExistsRes := .ok true }

theorem C8_witness :
    NewS3Storage optsBad net0 = (.error .keyLength, 0) ∧
    ({ objPfx := "pre", bucket := "b", iowrap := .secretBox (List.replicate 32 9) } :
        S3Storage).iowrap = .secretBox opts32.encryptionKey :=
  ⟨(C8_wrapper_selection_policy optsBad net0).2.1 (by decide) (by decide),
   (C8_wrapper_selection_policy opts32 net0).2.2 (by decide)
     { objPfx := "pre", bucket := "b", iowrap := .secretBox (List.replicate 32 9) } 2
     (by decide)⟩

theorem take_length_append (l1 l2 : List Nat) : (l1 ++ l2).take l1.length = l1 := by
  induction l1 with
  | nil => rfl
  | cons a l ih => simp [ih]

theorem drop_length_append (l1 l2 : List Nat) : (l1 ++ l2).drop l1.length = l2 := by
  induction l1 with
  | nil => rfl
  | cons a l ih => simp [ih]

/-- Masking is an involution (XOR with the same keystream). -/
theorem sbMask_sbMask (key nonce : List Nat) :
    ∀ (i : Nat) (msg : List Nat), sbMask key nonce i (sbMask key nonce i msg) = msg := by
  intro i msg
  induction msg generalizing i with
  | nil => rfl
  | cons b bs ih => simp [sbMask, Nat.xor_cancel_right, ih]

/-- The secret-box decode inverts encode under the same key when the
nonce has the nonce length. -/
theorem sbOpen_sbSeal (key nonce msg : List Nat) (h : nonce.length = sbNonceLen) :
    sbOpen key (sbSeal key nonce msg) = some msg := by
  unfold sbOpen sbSeal
  rw [← h, take_length_append, drop_length_append]
  simp [sbMask_sbMask]

/-- C9: storing a payload and loading the same key returns the payload
exactly, under both the cleartext and the secret-box wrapper (for the
latter with a nonce of the nonce length). -/
theorem C9_store_load_roundtrip (gs : S3Storage) (st : Storage) (key : String)
    (v nonce : List Nat)
    (hw : gs.iowrap = .cleartext ∨ nonce.length = sbNonceLen)
    (st2 : Storage) (hs : gs.Store st none nonce key v = .ok st2) :
    gs.Load st2 none key = .ok v := by
  have hst2 : st2 = storePut st (gs.objName key) (gs.iowrap.byteReader nonce v) := by
    simp [S3Storage.Store, s3PutF] at hs
    exact hs.symm
  subst hst2
  cases hio : gs.iowrap with
  | cleartext =>
    simp [S3Storage.Load, s3GetF, storePut, storeLookup, hio, IOWrap.byteReader,
      IOWrap.wrapReader]
  | secretBox k =>
    have hn : nonce.length = sbNonceLen := by
      rcases hw with h | h
      · rw [hio] at h
        cases h
      · exact h
    simp [S3Storage.Load, s3GetF, storePut, storeLookup, hio, IOWrap.byteReader,
      IOWrap.wrapReader, sbOpen_sbSeal k nonce v hn]

def key32 : List Nat := List.replicate 32 3

def nonce24 : List Nat := List.replicate 24 7

def gs9 : S3Storage := { objPfx := "pre", bucket := "b", iowrap := .secretBox key32 }

def sealedSt : Storage :=
  [("pre/certA", IOWrap.byteReader (.secretBox key32) nonce24 [1, 2, 3])]

set_option maxRecDepth 16384 in
theorem C9_witness : gs9.Load sealedSt none "certA" = .ok [1, 2, 3] :=
  C9_store_load_roundtrip gs9 [] "certA" [1, 2, 3] nonce24 (Or.inr (by decide))
    sealedSt (by decide)

/-- C10: `Exists` is true exactly when the stat call succeeds; every
error outcome — an injected transient failure as much as a missing
object — yields `false`, so the two are indistinguishable through
`Exists`. -/
theorem C10_exists_false_on_any_error (gs : S3Storage) (st : Storage)
    (fault : Option S3Error) (key : String) :
    (gs.Exists st fault key = true ↔
      ∃ n, s3StatF st (gs.objName key) fault = .ok n) ∧
    (∀ e : S3Error, gs.Exists st (some e) key = false) ∧
    (storeLookup st (gs.objName key) = none → gs.Exists st none key = false) := by
  refine ⟨?_, ?_, ?_⟩
  · unfold S3Storage.Exists
    cases hr : s3StatF st (gs.objName key) fault with
    | ok n => simp [hr]
    | error e => simp [hr]
  · intro e
    simp [S3Storage.Exists, s3StatF]
  · intro h
    simp [S3Storage.Exists, s3StatF, h]

theorem C10_witness : gs0.Exists [] none "certA" = false :=
  (C10_exists_false_on_any_error gs0 [] none "certA").2.2 (by decide)
